import Mathlib

/-!
Shallow embedding of the agent-marketplace workflow orchestration engine
(`agent_marketplace.py.py`: `SolanaPaymentProcessor`, `AgentMarketplace`, and
`coral_integration.py`: `CoralMarketplaceIntegration`), together with theorems
settling the behavioural claims about `execute_paid_workflow`,
`execute_coral_workflow`, `get_workflow_result` and `get_marketplace_stats`.

Modelling conventions:
* Python `float` amounts are modelled as exact rationals (`ℚ`); every verified
  equality corresponds to an identical sequence of arithmetic operations on
  both sides, so no statement here hinges on rounding.
* Nondeterministic environment inputs (`uuid` transaction hashes, wall-clock
  timestamps) are omitted from the records; the workflow id, which the source
  draws from `uuid.uuid4()`, is passed in as an explicit parameter.
* The three agents' `execute` coroutines in the source always return a payload
  dictionary; the `try`/`except` in `execute_paid_workflow` exists to catch any
  exception raised while awaiting a payment or an agent.  The embedding is
  therefore parametrised by an `AgentBehavior` giving each agent's outcome
  (`Except String Payload`, the error case modelling a raised exception), with
  `defaultBehavior` the always-succeeding behaviour of the source agents.
* Python dict fields (`results`, `payments`, the workflow store) are modelled
  as insertion-ordered association lists; dict assignment is `dictInsert`.
* A side trace of `Ev` events (one `Ev.charge` per `process_payment` call, one
  `Ev.invoke` per agent `execute` call, in program order) is returned as pure
  instrumentation: nothing in the embedding reads it.
-/

/-- Status values a workflow record can carry (`"processing"`, `"completed"`,
`"failed"` in the source). -/
inductive WStatus where
  | processing
  | completed
  | failed
deriving DecidableEq, Repr

/-- Abstract payload returned by an agent's `execute`.  The concrete template
dictionaries the source fabricates are interchangeable content; what matters
for the orchestration contracts is only which inputs each payload was built
from, which the constructors record.  `emptyDict` is the `{}` default that
`workflow["results"].get("content", {})` supplies when no content result
exists. -/
inductive Payload where
  | searchPayload (query : String)
  | contentPayload (searchData : Payload)
  | analysisPayload (searchData contentData : Payload)
  | emptyDict
deriving DecidableEq, Repr

/-- One ledger entry created by `SolanaPaymentProcessor.process_payment`.
The `tx_hash` (uuid) and `timestamp` fields are omitted (nondeterministic). -/
structure Transaction where
  amount_sol : ℚ
  amount_usd : ℚ
  from_wallet : String
  to_wallet : String
  agent_id : String
  status : String
  block_height : ℕ
  platform_fee_sol : ℚ
  creator_earning_sol : ℚ
deriving DecidableEq, Repr

/-- Coral metadata attached to a workflow by the enabled Coral path
(`regular_result["coral_protocol"] = {...}` in `coral_integration.py`). -/
structure CoralMeta where
  session_id : Option String
  thread_id : String
deriving DecidableEq, Repr

/-- The workflow record built by `AgentMarketplace.execute_paid_workflow`.
Timestamp fields (`started_at`, `completed_at`, `failed_at`) are omitted.
`coral_protocol` and `enhanced_confidence` are absent (`none`) unless the
enabled Coral path decorates the record. -/
structure Workflow where
  id : String
  query : String
  user_id : String
  user_wallet : String
  selected_agents : List String
  status : WStatus
  results : List (String × Payload)
  payments : List (String × Transaction)
  total_cost_sol : ℚ
  total_cost_usd : ℚ
  error : Option String
  success : Bool
  coral_protocol : Option CoralMeta
  enhanced_confidence : Option ℚ
deriving DecidableEq, Repr

/-- The mutable state of one `AgentMarketplace` instance: the payment
processor's transaction list and the workflow store `self.workflows`. -/
structure MarketState where
  transactions : List Transaction
  workflows : List (String × Workflow)
deriving DecidableEq, Repr

/-- State of a fresh `AgentMarketplace()`: no transactions, no workflows. -/
def initialState : MarketState := ⟨[], []⟩

/-- SOL/USD rate `self.sol_to_usd = 180.0`. -/
def solToUsd : ℚ := 180

/-- Platform fee ratio `self.platform_fee = 0.25`. -/
def platformFeeRatio : ℚ := 1/4

/-- Catalog metadata of the source agents (only the fields the orchestration
logic reads; ratings, descriptions etc. are display-only filler). -/
structure Agent where
  id : String
  name : String
  price_sol : ℚ
  price_usd : ℚ
deriving DecidableEq, Repr

/-- `SearchAgent.agent_info`. -/
def searchAgentInfo : Agent :=
  { id := "search_pro_2024", name := "Search Pro Agent",
    price_sol := 12/1000, price_usd := 216/100 }

/-- `ContentAgent.agent_info`. -/
def contentAgentInfo : Agent :=
  { id := "content_creator_pro", name := "Content Creator Pro",
    price_sol := 8/1000, price_usd := 144/100 }

/-- `AnalysisAgent.agent_info`. -/
def analysisAgentInfo : Agent :=
  { id := "business_analyst_ai", name := "Business Analyst AI",
    price_sol := 18/1000, price_usd := 324/100 }

/-- `self.agent_catalog` of `AgentMarketplace`. -/
def agent_catalog : List Agent := [searchAgentInfo, contentAgentInfo, analysisAgentInfo]

/-- The effective catalog resolution `execute_paid_workflow` implements: the
selection tokens the hard-coded branches recognise (`"search"`, `"content"`,
`"analysis"`) dispatch to the three agents; every other id matches no branch.
(The loop revision `agent_marketplace.py` makes the same mapping explicit,
with catalog ids literally `"search"`, `"content"`, `"analysis"`.) -/
def resolveAgent (agent_id : String) : Option Agent :=
  if agent_id = "search" then some searchAgentInfo
  else if agent_id = "content" then some contentAgentInfo
  else if agent_id = "analysis" then some analysisAgentInfo
  else none

/-- `SolanaPaymentProcessor.process_payment`: appends one confirmed
transaction to the processor's list and returns it. -/
def process_payment (transactions : List Transaction) (amount_sol : ℚ)
    (user_wallet agent_id : String) : List Transaction × Transaction :=
  let tx : Transaction :=
    { amount_sol := amount_sol
      amount_usd := amount_sol * solToUsd
      from_wallet := user_wallet
      to_wallet := "marketplace_treasury"
      agent_id := agent_id
      status := "confirmed"
      block_height := 287450000 + transactions.length
      platform_fee_sol := amount_sol * platformFeeRatio
      creator_earning_sol := amount_sol * (1 - platformFeeRatio) }
  (transactions ++ [tx], tx)

/-- Outcome of each agent's `execute` coroutine.  `Except.error e` models the
coroutine raising an exception whose `str` is `e`; the source's concrete
agents always succeed (see `defaultBehavior`). -/
structure AgentBehavior where
  searchExec : String → Except String Payload
  contentExec : Payload → Except String Payload
  analysisExec : Payload → Payload → Except String Payload

/-- Behaviour of the source's three agents: each always returns a payload. -/
def defaultBehavior : AgentBehavior :=
  { searchExec := fun q => .ok (.searchPayload q)
    contentExec := fun s => .ok (.contentPayload s)
    analysisExec := fun s c => .ok (.analysisPayload s c) }

/-- Instrumentation events: one `charge` per `process_payment` call and one
`invoke` per agent `execute` call, in program order. -/
inductive Ev where
  | charge (agent_id : String)
  | invoke (agent_id : String)
deriving DecidableEq, Repr

/-- Python dict assignment `d[k] = v` on an insertion-ordered assoc list:
replace the entry if the key is present, else append. -/
def dictInsert (l : List (String × Workflow)) (k : String) (v : Workflow) :
    List (String × Workflow) :=
  if l.any (fun p => p.1 = k) then
    l.map (fun p => if p.1 = k then (k, v) else p)
  else l ++ [(k, v)]

/-- Intermediate state threaded through the three agent blocks: the payment
processor's transactions, the workflow record under construction, and the
event trace so far. -/
abbrev StepOk := List Transaction × Workflow × List Ev

/-- Data available at the `except` handler: transactions charged so far, the
workflow as mutated so far, the trace, and the exception message. -/
abbrev StepFail := List Transaction × Workflow × List Ev × String

/-- The `Search Agent` block of `execute_paid_workflow`:
`if "search" in selected_agents:` charge, then invoke `self.search_agent`. -/
def searchStep (beh : AgentBehavior) (query user_wallet : String)
    (selected_agents : List String) (s : StepOk) : Except StepFail StepOk :=
  let (txs, wf, tr) := s
  if selected_agents.contains "search" then
    let pr := process_payment txs searchAgentInfo.price_sol user_wallet "search_pro_2024"
    let wf1 := { wf with payments := wf.payments ++ [("search", pr.2)],
                         total_cost_sol := wf.total_cost_sol + pr.2.amount_sol }
    let tr1 := tr ++ [Ev.charge "search", Ev.invoke "search"]
    match beh.searchExec query with
    | .ok r => .ok (pr.1, { wf1 with results := wf1.results ++ [("search", r)] }, tr1)
    | .error e => .error (pr.1, wf1, tr1, e)
  else .ok (txs, wf, tr)

/-- The `Content Agent` block:
`if "content" in selected_agents and "search" in workflow["results"]:` charge,
then invoke `self.content_agent` on `workflow["results"]["search"]`.  The
guard's second conjunct and the subsequent indexing are modelled by one
`lookup` match. -/
def contentStep (beh : AgentBehavior) (user_wallet : String)
    (selected_agents : List String) (s : StepOk) : Except StepFail StepOk :=
  let (txs, wf, tr) := s
  match wf.results.lookup "search" with
  | some searchData =>
    if selected_agents.contains "content" then
      let pr := process_payment txs contentAgentInfo.price_sol user_wallet "content_creator_pro"
      let wf1 := { wf with payments := wf.payments ++ [("content", pr.2)],
                           total_cost_sol := wf.total_cost_sol + pr.2.amount_sol }
      let tr1 := tr ++ [Ev.charge "content", Ev.invoke "content"]
      match beh.contentExec searchData with
      | .ok r => .ok (pr.1, { wf1 with results := wf1.results ++ [("content", r)] }, tr1)
      | .error e => .error (pr.1, wf1, tr1, e)
    else .ok (txs, wf, tr)
  | none => .ok (txs, wf, tr)

/-- The `Analysis Agent` block:
`if "analysis" in selected_agents and "search" in workflow["results"]:`
charge, then invoke `self.analysis_agent` on the search result and
`workflow["results"].get("content", {})` (the empty-dict default is modelled
as `Payload.emptyDict`). -/
def analysisStep (beh : AgentBehavior) (user_wallet : String)
    (selected_agents : List String) (s : StepOk) : Except StepFail StepOk :=
  let (txs, wf, tr) := s
  match wf.results.lookup "search" with
  | some searchData =>
    if selected_agents.contains "analysis" then
      let pr := process_payment txs analysisAgentInfo.price_sol user_wallet "business_analyst_ai"
      let wf1 := { wf with payments := wf.payments ++ [("analysis", pr.2)],
                           total_cost_sol := wf.total_cost_sol + pr.2.amount_sol }
      let tr1 := tr ++ [Ev.charge "analysis", Ev.invoke "analysis"]
      match beh.analysisExec searchData ((wf.results.lookup "content").getD .emptyDict) with
      | .ok r => .ok (pr.1, { wf1 with results := wf1.results ++ [("analysis", r)] }, tr1)
      | .error e => .error (pr.1, wf1, tr1, e)
    else .ok (txs, wf, tr)
  | none => .ok (txs, wf, tr)

/-- `AgentMarketplace.execute_paid_workflow`.  Returns the new marketplace
state, the call's outcome (`.ok workflow` for a normal return, `.error e` for
the re-raised exception of the `except` block), and the event trace.
The fresh `processing` workflow is built, the three agent blocks run in
program order inside the `try`, and either the `completed` finaliser or the
`except` handler (mark `failed`, record the error, store, re-raise) runs. -/
def execute_paid_workflow (beh : AgentBehavior) (st : MarketState)
    (workflow_id query : String) (selected_agents : List String)
    (user_wallet user_id : String) :
    MarketState × Except String Workflow × List Ev :=
  let wf0 : Workflow :=
    { id := workflow_id, query := query, user_id := user_id,
      user_wallet := user_wallet, selected_agents := selected_agents,
      status := .processing, results := [], payments := [],
      total_cost_sol := 0, total_cost_usd := 0, error := none,
      success := false, coral_protocol := none, enhanced_confidence := none }
  let finishFailed : StepFail → MarketState × Except String Workflow × List Ev :=
    fun f =>
      let wfF := { f.2.1 with status := WStatus.failed, error := some f.2.2.2 }
      (⟨f.1, dictInsert st.workflows workflow_id wfF⟩, .error f.2.2.2, f.2.2.1)
  match searchStep beh query user_wallet selected_agents (st.transactions, wf0, []) with
  | .error f => finishFailed f
  | .ok s1 =>
    match contentStep beh user_wallet selected_agents s1 with
    | .error f => finishFailed f
    | .ok s2 =>
      match analysisStep beh user_wallet selected_agents s2 with
      | .error f => finishFailed f
      | .ok s3 =>
        let wfC := { s3.2.1 with status := WStatus.completed,
                                 total_cost_usd := s3.2.1.total_cost_sol * solToUsd,
                                 success := true }
        (⟨s3.1, dictInsert st.workflows workflow_id wfC⟩, .ok wfC, s3.2.2)

/-- `AgentMarketplace.get_workflow_result`: `self.workflows.get(workflow_id)`. -/
def get_workflow_result (st : MarketState) (workflow_id : String) : Option Workflow :=
  st.workflows.lookup workflow_id

/-- Result record of `AgentMarketplace.get_marketplace_stats`. -/
structure MarketplaceStats where
  total_agents : ℕ
  total_workflows : ℕ
  total_revenue_sol : ℚ
  total_revenue_usd : ℚ
  successful_workflows : ℕ
  platform_fee_collected : ℚ
  creator_earnings : ℚ
  avg_workflow_value : ℚ
deriving DecidableEq, Repr

/-- `AgentMarketplace.get_marketplace_stats`. -/
def get_marketplace_stats (st : MarketState) : MarketplaceStats :=
  let total_revenue := (st.transactions.map (fun tx => tx.amount_sol)).sum
  { total_agents := agent_catalog.length
    total_workflows := st.workflows.length
    total_revenue_sol := total_revenue
    total_revenue_usd := total_revenue * solToUsd
    successful_workflows :=
      (st.workflows.filter (fun p => p.2.status = WStatus.completed)).length
    platform_fee_collected := total_revenue * platformFeeRatio
    creator_earnings := total_revenue * (1 - platformFeeRatio)
    avg_workflow_value :=
      if st.workflows.length = 0 then 0 else total_revenue / st.workflows.length }

/-- External-environment outcomes seen by one `execute_coral_workflow` call:
whether the integration is enabled, the current Coral session id, the result
of `create_thread()` (`none` models a failed creation), and whether
`send_message_to_thread` returned a result. -/
structure CoralEnv where
  coral_enabled : Bool
  session_id : Option String
  create_thread : Option String
  send_ok : Bool
deriving DecidableEq, Repr

/-- Decoration the enabled Coral path applies to the returned workflow dict:
`regular_result["coral_protocol"] = {...}` and `regular_result["enhanced_confidence"]
= min(1.0, regular_result.get("confidence_score", 0.9) + 0.05)`; the workflow
dict never carries a `confidence_score` key, so the `get` default `0.9`
applies and the stored value is `0.95`. -/
def addCoralMeta (wf : Workflow) (session_id : Option String) (thread_id : String) :
    Workflow :=
  { wf with coral_protocol := some ⟨session_id, thread_id⟩,
            enhanced_confidence := some (min 1 (9/10 + 5/100 : ℚ)) }

/-- `CoralMarketplaceIntegration.execute_coral_workflow`.  All fallback
branches delegate to `execute_paid_workflow` with user id `"demo_user"`; the
fully-enabled branch also runs it and then mutates the returned (and, being
the same dict object, the stored) workflow with Coral metadata. -/
def execute_coral_workflow (env : CoralEnv) (beh : AgentBehavior) (st : MarketState)
    (workflow_id query : String) (selected_agents : List String)
    (user_wallet : String) :
    MarketState × Except String Workflow × List Ev :=
  if env.coral_enabled = false then
    execute_paid_workflow beh st workflow_id query selected_agents user_wallet "demo_user"
  else
    match env.create_thread with
    | none =>
      execute_paid_workflow beh st workflow_id query selected_agents user_wallet "demo_user"
    | some thread_id =>
      if env.send_ok then
        let r := execute_paid_workflow beh st workflow_id query selected_agents
          user_wallet "demo_user"
        match r.2.1 with
        | .ok wf =>
          let wfM := addCoralMeta wf env.session_id thread_id
          (⟨r.1.transactions, dictInsert r.1.workflows workflow_id wfM⟩, .ok wfM, r.2.2)
        | .error e => (r.1, .error e, r.2.2)
      else
        execute_paid_workflow beh st workflow_id query selected_agents user_wallet "demo_user"

/-- Always-failing search agent behaviour, used to witness the failure paths:
the search invocation raises, the other agents behave as in the source. -/
def failingSearchBehavior : AgentBehavior :=
  { searchExec := fun _ => .error "search agent crashed"
    contentExec := fun s => .ok (.contentPayload s)
    analysisExec := fun s c => .ok (.analysisPayload s c) }

/-- Always-failing content agent behaviour: search succeeds, the content
invocation raises. -/
def failingContentBehavior : AgentBehavior :=
  { searchExec := fun q => .ok (.searchPayload q)
    contentExec := fun _ => .error "content agent crashed"
    analysisExec := fun s c => .ok (.analysisPayload s c) }

/-- Events contributed by one agent block: a charge followed by an invoke when
the block runs (`b = true`), nothing when it is skipped. -/
def stepEvs (b : Bool) (agent_id : String) : List Ev :=
  if b then [Ev.charge agent_id, Ev.invoke agent_id] else []

/-- One-element list when an agent block runs, empty when it is skipped; used
to describe the keys, amounts and agent ids a run appends per block. -/
def stepKey {α : Type} (b : Bool) (x : α) : List α := if b then [x] else []

/-- Overwrite a workflow record's `selected_agents` field.  The orchestration
logic never reads this field back (it inspects the `selected_agents` argument
instead), so two runs that agree on everything else are compared modulo it. -/
def setSel (wf : Workflow) (l : List String) : Workflow := { wf with selected_agents := l }

/-- Recogniser for charge events, used to count charges in a trace. -/
def isChargeEv : Ev → Bool
  | .charge _ => true
  | .invoke _ => false

/-- Marketplace states reachable from a fresh `AgentMarketplace()` by any
sequence of workflow executions (direct or through the Coral integration);
the remaining public operations are read-only. -/
inductive Reachable : MarketState → Prop where
  | init : Reachable initialState
  | paid (beh : AgentBehavior) (st : MarketState) (wid q : String)
      (sel : List String) (w u : String) :
      Reachable st → Reachable (execute_paid_workflow beh st wid q sel w u).1
  | coral (env : CoralEnv) (beh : AgentBehavior) (st : MarketState) (wid q : String)
      (sel : List String) (w : String) :
      Reachable st → Reachable (execute_coral_workflow env beh st wid q sel w).1

/-! ## Lemmas about the workflow store -/

/-- Looking up the just-inserted key of `dictInsert` returns the new value. -/
theorem dictInsert_lookup (l : List (String × Workflow)) (k : String) (v : Workflow) :
    (dictInsert l k v).lookup k = some v := by
  unfold dictInsert
  split
  next h =>
    induction l with
    | nil => simp at h
    | cons a t ih =>
      obtain ⟨a1, a2⟩ := a
      rw [List.map_cons]
      by_cases hak : a1 = k
      · have : (if (a1, a2).1 = k then (k, v) else (a1, a2)) = (k, v) := if_pos hak
        rw [this, List.lookup]
        simp
      · have : (if (a1, a2).1 = k then (k, v) else (a1, a2)) = (a1, a2) := if_neg hak
        rw [this]
        have ht : t.any (fun p => p.1 = k) = true := by
          simp only [List.any_cons, Bool.or_eq_true, decide_eq_true_eq] at h
          rcases h with h | h
          · exact absurd h hak
          · exact h
        have hbk : (k == a1) = false :=
          beq_eq_false_iff_ne.mpr (fun hk => hak hk.symm)
        rw [List.lookup]
        simp only [hbk]
        exact ih ht
  next h =>
    induction l with
    | nil => simp [List.lookup]
    | cons a t ih =>
      obtain ⟨a1, a2⟩ := a
      simp only [List.any_cons, Bool.or_eq_true, decide_eq_true_eq, not_or] at h
      have hbk : (k == a1) = false :=
        beq_eq_false_iff_ne.mpr (fun hk => h.1 hk.symm)
      rw [List.cons_append, List.lookup]
      simp only [hbk]
      exact ih (by simp [h.2])

/-- Every entry of `dictInsert l k v` is an old entry or carries the new
value. -/
theorem mem_dictInsert (l : List (String × Workflow)) (k : String) (v : Workflow)
    (p : String × Workflow) (hp : p ∈ dictInsert l k v) : p ∈ l ∨ p.2 = v := by
  unfold dictInsert at hp
  split at hp
  · rcases List.mem_map.mp hp with ⟨a, ha, he⟩
    by_cases hak : a.1 = k
    · right
      rw [if_pos hak] at he
      rw [← he]
    · left
      rw [if_neg hak] at he
      rw [← he]; exact ha
  · rcases List.mem_append.mp hp with h | h
    · exact Or.inl h
    · right
      simp only [List.mem_singleton] at h
      rw [h]

/-- A successful association-list lookup comes from an entry of the list. -/
theorem lookup_mem (l : List (String × Workflow)) (k : String) (v : Workflow)
    (h : l.lookup k = some v) : (k, v) ∈ l := by
  induction l with
  | nil => simp [List.lookup] at h
  | cons a t ih =>
    obtain ⟨a1, a2⟩ := a
    rw [List.lookup] at h
    cases hk : (k == a1) with
    | true =>
      simp only [hk, Option.some.injEq] at h
      have hk2 : k = a1 := by simpa using hk
      rw [hk2, h]
      exact List.mem_cons_self _ _
    | false =>
      simp only [hk] at h
      exact List.mem_cons_of_mem _ (ih h)

/-! ## Characterisation of one `execute_paid_workflow` run -/

set_option maxHeartbeats 1000000 in
/-- Complete characterisation of a single run: for suitable per-block flags
`b1 b2 b3` there is one workflow record `wfr` that is stored under the
workflow id, whose payments are exactly the ledger entries appended, whose
trace/keys/amounts/agent ids follow the fixed search-content-analysis block
order, and whose terminal fields depend on whether the run returned normally
or re-raised. -/
theorem execute_shape (beh : AgentBehavior) (st : MarketState) (wid q : String)
    (sel : List String) (w u : String) :
    ∃ (b1 b2 b3 : Bool) (wfr : Workflow),
      (execute_paid_workflow beh st wid q sel w u).1.workflows
        = dictInsert st.workflows wid wfr ∧
      (execute_paid_workflow beh st wid q sel w u).1.transactions
        = st.transactions ++ wfr.payments.map Prod.snd ∧
      (execute_paid_workflow beh st wid q sel w u).2.2
        = stepEvs b1 "search" ++ stepEvs b2 "content" ++ stepEvs b3 "analysis" ∧
      wfr.payments.map Prod.fst
        = stepKey b1 "search" ++ stepKey b2 "content" ++ stepKey b3 "analysis" ∧
      wfr.payments.map (fun p => p.2.amount_sol)
        = stepKey b1 (12/1000 : ℚ) ++ stepKey b2 (8/1000 : ℚ) ++ stepKey b3 (18/1000 : ℚ) ∧
      wfr.payments.map (fun p => p.2.agent_id)
        = stepKey b1 "search_pro_2024" ++ stepKey b2 "content_creator_pro"
          ++ stepKey b3 "business_analyst_ai" ∧
      wfr.total_cost_sol = (wfr.payments.map (fun p => p.2.amount_sol)).sum ∧
      wfr.id = wid ∧ wfr.selected_agents = sel ∧
      (match (execute_paid_workflow beh st wid q sel w u).2.1 with
       | .ok wf =>
           wf = wfr ∧ wfr.status = WStatus.completed ∧ wfr.error = none ∧
           wfr.success = true ∧ wfr.total_cost_usd = wfr.total_cost_sol * solToUsd ∧
           wfr.results.map Prod.fst
             = stepKey b1 "search" ++ stepKey b2 "content" ++ stepKey b3 "analysis" ∧
           b1 = sel.contains "search" ∧ b2 = (sel.contains "content" && b1) ∧
           b3 = (sel.contains "analysis" && b1)
       | .error e =>
           wfr.status = WStatus.failed ∧ wfr.error = some e ∧ wfr.success = false ∧
           ∃ k, (k = "search" ∨ k = "content" ∨ k = "analysis") ∧
             wfr.payments.map Prod.fst = wfr.results.map Prod.fst ++ [k]) := by
  cases hs : sel.contains "search" with
  | false =>
    refine ⟨false, false, false, ?_⟩
    simp only [execute_paid_workflow, searchStep, contentStep, analysisStep,
      process_payment, hs, Bool.false_eq_true, if_false, List.lookup]
    refine ⟨_, rfl, ?_, ?_, ?_, ?_, ?_, ?_, ?_, ?_, ?_⟩ <;>
      norm_num [stepEvs, stepKey, hs]
  | true =>
    cases hse : beh.searchExec q with
    | error e =>
      refine ⟨true, false, false, ?_⟩
      simp only [execute_paid_workflow, searchStep, contentStep, analysisStep,
        process_payment, hs, hse, if_true, List.lookup]
      refine ⟨_, rfl, ?_, ?_, ?_, ?_, ?_, ?_, ?_, ?_, ?_⟩ <;>
        norm_num [stepEvs, stepKey, hs, searchAgentInfo]
    | ok rS =>
      cases hc : sel.contains "content" with
      | true =>
        cases hce : beh.contentExec rS with
        | error e =>
          refine ⟨true, true, false, ?_⟩
          simp only [execute_paid_workflow, searchStep, contentStep, analysisStep,
            process_payment, hs, hse, hc, hce, if_true, List.lookup,
            show ("search" == "search") = true from rfl,
            show ("content" == "search") = false from rfl]
          refine ⟨_, rfl, ?_, ?_, ?_, ?_, ?_, ?_, ?_, ?_, ?_⟩ <;>
            norm_num [stepEvs, stepKey, hs, hc, searchAgentInfo, contentAgentInfo]
        | ok rC =>
          cases ha : sel.contains "analysis" with
          | true =>
            cases hae : beh.analysisExec rS rC with
            | error e =>
              refine ⟨true, true, true, ?_⟩
              simp only [execute_paid_workflow, searchStep, contentStep, analysisStep,
                process_payment, hs, hse, hc, hce, ha, if_true, List.lookup,
                show ("search" == "search") = true from rfl,
                show ("content" == "search") = false from rfl,
                show ("content" == "content") = true from rfl,
                Option.getD, hae]
              refine ⟨_, rfl, ?_, ?_, ?_, ?_, ?_, ?_, ?_, ?_, ?_⟩ <;>
                norm_num [stepEvs, stepKey, hs, hc, ha,
                  searchAgentInfo, contentAgentInfo, analysisAgentInfo]
            | ok rA =>
              refine ⟨true, true, true, ?_⟩
              simp only [execute_paid_workflow, searchStep, contentStep, analysisStep,
                process_payment, hs, hse, hc, hce, ha, if_true, List.lookup,
                show ("search" == "search") = true from rfl,
                show ("content" == "search") = false from rfl,
                show ("content" == "content") = true from rfl,
                Option.getD, hae]
              refine ⟨_, rfl, ?_, ?_, ?_, ?_, ?_, ?_, ?_, ?_, ?_⟩ <;>
                norm_num [stepEvs, stepKey, hs, hc, ha,
                  searchAgentInfo, contentAgentInfo, analysisAgentInfo]
          | false =>
            refine ⟨true, true, false, ?_⟩
            simp only [execute_paid_workflow, searchStep, contentStep, analysisStep,
              process_payment, hs, hse, hc, hce, ha, Bool.false_eq_true, if_false,
              if_true, List.lookup,
              show ("search" == "search") = true from rfl,
              show ("content" == "search") = false from rfl]
            refine ⟨_, rfl, ?_, ?_, ?_, ?_, ?_, ?_, ?_, ?_, ?_⟩ <;>
              norm_num [stepEvs, stepKey, hs, hc, ha, searchAgentInfo, contentAgentInfo]
      | false =>
        cases ha : sel.contains "analysis" with
        | true =>
          cases hae : beh.analysisExec rS Payload.emptyDict with
          | error e =>
            refine ⟨true, false, true, ?_⟩
            simp only [execute_paid_workflow, searchStep, contentStep, analysisStep,
              process_payment, hs, hse, hc, ha, Bool.false_eq_true, if_false, if_true,
              List.lookup,
              show ("search" == "search") = true from rfl,
              show ("content" == "search") = false from rfl,
              Option.getD, hae]
            refine ⟨_, rfl, ?_, ?_, ?_, ?_, ?_, ?_, ?_, ?_, ?_⟩ <;>
              norm_num [stepEvs, stepKey, hs, hc, ha, searchAgentInfo, analysisAgentInfo]
          | ok rA =>
            refine ⟨true, false, true, ?_⟩
            simp only [execute_paid_workflow, searchStep, contentStep, analysisStep,
              process_payment, hs, hse, hc, ha, Bool.false_eq_true, if_false, if_true,
              List.lookup,
              show ("search" == "search") = true from rfl,
              show ("content" == "search") = false from rfl,
              Option.getD, hae]
            refine ⟨_, rfl, ?_, ?_, ?_, ?_, ?_, ?_, ?_, ?_, ?_⟩ <;>
              norm_num [stepEvs, stepKey, hs, hc, ha, searchAgentInfo, analysisAgentInfo]
        | false =>
          refine ⟨true, false, false, ?_⟩
          simp only [execute_paid_workflow, searchStep, contentStep, analysisStep,
            process_payment, hs, hse, hc, ha, Bool.false_eq_true, if_false, if_true,
            List.lookup,
            show ("search" == "search") = true from rfl]
          refine ⟨_, rfl, ?_, ?_, ?_, ?_, ?_, ?_, ?_, ?_, ?_⟩ <;>
            norm_num [stepEvs, stepKey, hs, hc, ha, searchAgentInfo]

/-! ## Claim theorems -/

/-- C7: when the Coral integration is disabled (service unreachable or no
session, `coral_enabled = False`), `execute_coral_workflow` is exactly a
direct `execute_paid_workflow` call with the same query, selection and wallet
(and the fixed user id `"demo_user"`): same returned workflow, same ledger
and workflow-store effect. -/
theorem C7_disabled_coral_equals_direct (env : CoralEnv) (beh : AgentBehavior)
    (st : MarketState) (workflow_id query : String) (selected_agents : List String)
    (user_wallet : String) (h : env.coral_enabled = false) :
    execute_coral_workflow env beh st workflow_id query selected_agents user_wallet
      = execute_paid_workflow beh st workflow_id query selected_agents user_wallet
          "demo_user" := by
  simp [execute_coral_workflow, h]

/-- Witness for C7 at a concrete disabled environment and input. -/
theorem C7_disabled_coral_equals_direct_witness :
    execute_coral_workflow ⟨false, none, none, false⟩ defaultBehavior initialState
        "wf-c7" "widgets" ["search", "content"] "wallet-w"
      = execute_paid_workflow defaultBehavior initialState "wf-c7" "widgets"
          ["search", "content"] "wallet-w" "demo_user" :=
  C7_disabled_coral_equals_direct ⟨false, none, none, false⟩ defaultBehavior initialState
    "wf-c7" "widgets" ["search", "content"] "wallet-w" rfl

/-- C10: `get_marketplace_stats` is total: with zero stored workflows the
average workflow value is `0` (the guarded division is never taken), and with
zero transactions the revenue, platform fee and creator earnings are all `0`. -/
theorem C10_stats_total_on_empty (st : MarketState) :
    (st.workflows = [] → (get_marketplace_stats st).avg_workflow_value = 0) ∧
    (st.transactions = [] →
      (get_marketplace_stats st).total_revenue_sol = 0 ∧
      (get_marketplace_stats st).platform_fee_collected = 0 ∧
      (get_marketplace_stats st).creator_earnings = 0) := by
  constructor
  · intro h
    simp [get_marketplace_stats, h]
  · intro h
    simp [get_marketplace_stats, h]

/-- Witness for C10 on the fresh marketplace state. -/
theorem C10_stats_total_on_empty_witness :
    initialState.workflows = [] ∧ initialState.transactions = [] ∧
    (get_marketplace_stats initialState).avg_workflow_value = 0 ∧
    (get_marketplace_stats initialState).total_revenue_sol = 0 ∧
    (get_marketplace_stats initialState).platform_fee_collected = 0 ∧
    (get_marketplace_stats initialState).creator_earnings = 0 :=
  ⟨rfl, rfl, (C10_stats_total_on_empty initialState).1 rfl,
    (C10_stats_total_on_empty initialState).2 rfl⟩

/-- C2 counterexample: with a failing search invocation, the call's outcome is
the propagated exception (`raise e` at the end of the handler), refuting
"execute_paid_workflow never propagates such an exception to its caller". -/
theorem C2_counterexample :
    (execute_paid_workflow failingSearchBehavior initialState "wf-c2" "widgets"
        ["search"] "wallet-w" "user-1").2.1
      = Except.error "search agent crashed" := by
  rfl

/-- C2 (amended): a provider-level error raised during an invocation is caught,
the workflow is recorded in the store with `status = failed` and the error
message, and the exception is then re-raised to the caller (the `.error`
outcome); it is converted into workflow terminal state but still propagated. -/
theorem C2_error_recorded_then_reraised (beh : AgentBehavior) (st : MarketState)
    (wid q : String) (sel : List String) (w u e : String)
    (h : (execute_paid_workflow beh st wid q sel w u).2.1 = Except.error e) :
    (get_workflow_result (execute_paid_workflow beh st wid q sel w u).1 wid).map
      (fun wf => (wf.status, wf.error)) = some (WStatus.failed, some e) := by
  obtain ⟨b1, b2, b3, wfr, hw, htx, htr, hpk, hpa, hpai, hsum, hid, hsel, hm⟩ :=
    execute_shape beh st wid q sel w u
  simp only [h] at hm
  obtain ⟨hst, herr, -⟩ := hm
  simp [get_workflow_result, hw, dictInsert_lookup, hst, herr]

/-- Witness for the amended C2 at a concrete failing run. -/
theorem C2_error_recorded_then_reraised_witness :
    (get_workflow_result (execute_paid_workflow failingSearchBehavior initialState
        "wf-c2w" "widgets" ["search"] "wallet-w" "user-1").1 "wf-c2w").map
      (fun wf => (wf.status, wf.error))
      = some (WStatus.failed, some "search agent crashed") :=
  C2_error_recorded_then_reraised failingSearchBehavior initialState "wf-c2w" "widgets"
    ["search"] "wallet-w" "user-1" "search agent crashed" rfl

/-- C5: when the k-th invoked provider fails, the stored workflow is `failed`
with the cause recorded, holds one more payment than results (the failing
step was charged but produced no result), and the earlier payments line up
with the recorded results one-for-one. -/
theorem C5_failed_run_accounting (beh : AgentBehavior) (st : MarketState)
    (wid q : String) (sel : List String) (w u e : String)
    (h : (execute_paid_workflow beh st wid q sel w u).2.1 = Except.error e) :
    ((get_workflow_result (execute_paid_workflow beh st wid q sel w u).1 wid).isSome
      = true) ∧
    (get_workflow_result (execute_paid_workflow beh st wid q sel w u).1 wid).map
        (fun wf => (wf.status, wf.error, (wf.payments.map Prod.fst).dropLast,
          wf.payments.length))
      = (get_workflow_result (execute_paid_workflow beh st wid q sel w u).1 wid).map
          (fun wf => (WStatus.failed, some e, wf.results.map Prod.fst,
            wf.results.length + 1)) := by
  obtain ⟨b1, b2, b3, wfr, hw, htx, htr, hpk, hpa, hpai, hsum, hid, hsel, hm⟩ :=
    execute_shape beh st wid q sel w u
  simp only [h] at hm
  obtain ⟨hst, herr, hsucc, k, hk, hkeys⟩ := hm
  have hlen : wfr.payments.length = wfr.results.length + 1 := by
    have := congrArg List.length hkeys
    simpa using this
  have hdrop : (wfr.payments.map Prod.fst).dropLast = wfr.results.map Prod.fst := by
    rw [hkeys]
    exact List.dropLast_concat
  simp [get_workflow_result, hw, dictInsert_lookup, hst, herr, hdrop, hlen]

/-- Witness for C5 at a run whose second invoked provider (content) fails. -/
theorem C5_failed_run_accounting_witness :
    ((get_workflow_result (execute_paid_workflow failingContentBehavior initialState
        "wf-c5" "widgets" ["search", "content"] "wallet-w" "user-1").1 "wf-c5").isSome
      = true) ∧
    (get_workflow_result (execute_paid_workflow failingContentBehavior initialState
        "wf-c5" "widgets" ["search", "content"] "wallet-w" "user-1").1 "wf-c5").map
        (fun wf => (wf.status, wf.error, (wf.payments.map Prod.fst).dropLast,
          wf.payments.length))
      = (get_workflow_result (execute_paid_workflow failingContentBehavior initialState
          "wf-c5" "widgets" ["search", "content"] "wallet-w" "user-1").1 "wf-c5").map
          (fun wf => (WStatus.failed, some "content agent crashed",
            wf.results.map Prod.fst, wf.results.length + 1)) :=
  C5_failed_run_accounting failingContentBehavior initialState "wf-c5" "widgets"
    ["search", "content"] "wallet-w" "user-1" "content agent crashed" rfl

/-- Invoke events only occur inside a run block of the form charge-then-invoke. -/
theorem stepEvs_invoke_mem (b : Bool) (x p : String) (hp : Ev.invoke p ∈ stepEvs b x) :
    p = x ∧ stepEvs b x = [Ev.charge p, Ev.invoke p] := by
  cases b <;> simp_all [stepEvs]

/-- C6: in every run, each invoked provider's charge immediately precedes its
invocation in the event order, and the ledger after the run is the ledger
before plus exactly one appended entry per charge event — nothing is removed
or refunded, also when the run fails. -/
theorem C6_charge_precedes_invoke (beh : AgentBehavior) (st : MarketState)
    (wid q : String) (sel : List String) (w u : String) (p : String)
    (hp : Ev.invoke p ∈ (execute_paid_workflow beh st wid q sel w u).2.2) :
    (∃ l1 l2, (execute_paid_workflow beh st wid q sel w u).2.2
        = l1 ++ Ev.charge p :: Ev.invoke p :: l2) ∧
    (∃ new, (execute_paid_workflow beh st wid q sel w u).1.transactions
        = st.transactions ++ new ∧
      new.length
        = ((execute_paid_workflow beh st wid q sel w u).2.2.filter isChargeEv).length) := by
  obtain ⟨b1, b2, b3, wfr, hw, htx, htr, hpk, hpa, hpai, hsum, hid, hsel, hm⟩ :=
    execute_shape beh st wid q sel w u
  constructor
  · rw [htr] at hp ⊢
    rcases List.mem_append.mp hp with hp1 | hp23
    · rcases List.mem_append.mp hp1 with hp1 | hp2
      · obtain ⟨hpx, hblk⟩ := stepEvs_invoke_mem b1 "search" p hp1
        refine ⟨[], stepEvs b2 "content" ++ stepEvs b3 "analysis", ?_⟩
        simp [hblk, List.append_assoc]
      · obtain ⟨hpx, hblk⟩ := stepEvs_invoke_mem b2 "content" p hp2
        refine ⟨stepEvs b1 "search", stepEvs b3 "analysis", ?_⟩
        simp [hblk, List.append_assoc]
    · obtain ⟨hpx, hblk⟩ := stepEvs_invoke_mem b3 "analysis" p hp23
      refine ⟨stepEvs b1 "search" ++ stepEvs b2 "content", [], ?_⟩
      simp [hblk, List.append_assoc]
  · refine ⟨wfr.payments.map Prod.snd, htx, ?_⟩
    have hplen : wfr.payments.length
        = (stepKey b1 "search" ++ stepKey b2 "content" ++ stepKey b3 "analysis").length := by
      have := congrArg List.length hpk
      simpa using this
    rw [List.length_map, hplen, htr]
    cases b1 <;> cases b2 <;> cases b3 <;>
      simp [stepEvs, stepKey, isChargeEv]

/-- Witness for C6 at a concrete run invoking the search provider. -/
theorem C6_charge_precedes_invoke_witness :
    (∃ l1 l2, (execute_paid_workflow defaultBehavior initialState "wf-c6" "widgets"
        ["search"] "wallet-w" "user-1").2.2
        = l1 ++ Ev.charge "search" :: Ev.invoke "search" :: l2) ∧
    (∃ new, (execute_paid_workflow defaultBehavior initialState "wf-c6" "widgets"
        ["search"] "wallet-w" "user-1").1.transactions
        = initialState.transactions ++ new ∧
      new.length = ((execute_paid_workflow defaultBehavior initialState "wf-c6" "widgets"
          ["search"] "wallet-w" "user-1").2.2.filter isChargeEv).length) :=
  C6_charge_precedes_invoke defaultBehavior initialState "wf-c6" "widgets" ["search"]
    "wallet-w" "user-1" "search" (by decide)

/-- C8 counterexample: selecting `"search"` twice charges and invokes the
search provider once, not once per occurrence, refuting the claim that each
occurrence is an independent charge-and-invoke step. -/
theorem C8_counterexample :
    ["search", "search"].count "search" = 2 ∧
    (execute_paid_workflow defaultBehavior initialState "wf-c8" "widgets"
        ["search", "search"] "wallet-w" "user-1").2.2
      = [Ev.charge "search", Ev.invoke "search"] ∧
    ((execute_paid_workflow defaultBehavior initialState "wf-c8" "widgets"
        ["search", "search"] "wallet-w" "user-1").2.1).map
      (fun wf => wf.payments.map Prod.fst)
      = Except.ok ["search"] := by
  refine ⟨by decide, rfl, rfl⟩

/-- C8 (amended): duplicate occurrences in the selection are not independent
steps: in every run each provider is charged at most once and invoked at most
once (membership tests deduplicate the selection). -/
theorem C8_no_duplicate_charges (beh : AgentBehavior) (st : MarketState)
    (wid q : String) (sel : List String) (w u : String) (p : String) :
    ((execute_paid_workflow beh st wid q sel w u).2.2.count (Ev.charge p) ≤ 1) ∧
    ((execute_paid_workflow beh st wid q sel w u).2.2.count (Ev.invoke p) ≤ 1) := by
  obtain ⟨b1, b2, b3, wfr, hw, htx, htr, hpk, hpa, hpai, hsum, hid, hsel, hm⟩ :=
    execute_shape beh st wid q sel w u
  have hnd : ((execute_paid_workflow beh st wid q sel w u).2.2).Nodup := by
    rw [htr]
    cases b1 <;> cases b2 <;> cases b3 <;> simp [stepEvs]
  exact ⟨List.nodup_iff_count_le_one.mp hnd (Ev.charge p),
    List.nodup_iff_count_le_one.mp hnd (Ev.invoke p)⟩

/-- C1 counterexample: `"content"` resolves yet a selection of just
`["content"]` completes with no charge, no invocation and no result (content
requires a prior search result), and a selection listing analysis before
search still executes search first — both refuting per-selection-order,
exactly-once execution of every resolving id. -/
theorem C1_counterexample :
    (resolveAgent "content").isSome = true ∧
    ((execute_paid_workflow defaultBehavior initialState "wf-c1" "widgets"
        ["content"] "wallet-w" "user-1").2.1).map
      (fun wf => (wf.status, wf.payments, wf.results))
      = Except.ok (WStatus.completed, [], []) ∧
    (execute_paid_workflow defaultBehavior initialState "wf-c1" "widgets"
        ["content"] "wallet-w" "user-1").2.2 = [] ∧
    (execute_paid_workflow defaultBehavior initialState "wf-c1b" "widgets"
        ["analysis", "search"] "wallet-w" "user-1").2.2
      = [Ev.charge "search", Ev.invoke "search",
         Ev.charge "analysis", Ev.invoke "analysis"] :=
  ⟨rfl, rfl, rfl, rfl⟩

/-- C1 (amended): in every run that returns normally, the agent blocks execute
in the fixed order search, content, analysis — not the order of
`selectedProviders` — each at most once; search runs iff selected, while
content and analysis run iff selected *and* a search result exists, so a
resolving id can be skipped because of which other ids are selected. -/
theorem C1_fixed_block_order (beh : AgentBehavior) (st : MarketState)
    (wid q : String) (sel : List String) (w u : String)
    (h : ((execute_paid_workflow beh st wid q sel w u).2.1).isOk = true) :
    ((execute_paid_workflow beh st wid q sel w u).2.1).map
        (fun wf => wf.payments.map Prod.fst)
      = Except.ok (stepKey (sel.contains "search") "search"
          ++ stepKey (sel.contains "content" && sel.contains "search") "content"
          ++ stepKey (sel.contains "analysis" && sel.contains "search") "analysis") ∧
    ((execute_paid_workflow beh st wid q sel w u).2.1).map
        (fun wf => wf.results.map Prod.fst)
      = Except.ok (stepKey (sel.contains "search") "search"
          ++ stepKey (sel.contains "content" && sel.contains "search") "content"
          ++ stepKey (sel.contains "analysis" && sel.contains "search") "analysis") ∧
    (execute_paid_workflow beh st wid q sel w u).2.2
      = stepEvs (sel.contains "search") "search"
        ++ stepEvs (sel.contains "content" && sel.contains "search") "content"
        ++ stepEvs (sel.contains "analysis" && sel.contains "search") "analysis" := by
  obtain ⟨b1, b2, b3, wfr, hw, htx, htr, hpk, hpa, hpai, hsum, hid, hsel, hm⟩ :=
    execute_shape beh st wid q sel w u
  cases hr : (execute_paid_workflow beh st wid q sel w u).2.1 with
  | error e =>
    rw [hr] at h
    simp [Except.isOk, Except.toBool] at h
  | ok wf =>
    simp only [hr] at hm
    obtain ⟨hwf, hst, herr, hsucc, husd, hres, hb1, hb2, hb3⟩ := hm
    rw [← hb1, ← hb2, ← hb3]
    refine ⟨?_, ?_, htr⟩
    · simp [Except.map, hwf, hpk]
    · simp [Except.map, hwf, hres]

/-- Witness for the amended C1: with selection `["analysis", "search"]` the
search block runs first and the analysis block second. -/
theorem C1_fixed_block_order_witness :
    ((execute_paid_workflow defaultBehavior initialState "wf-c1w" "widgets"
        ["analysis", "search"] "wallet-w" "user-1").2.1).map
        (fun wf => wf.payments.map Prod.fst)
      = Except.ok (stepKey (["analysis", "search"].contains "search") "search"
          ++ stepKey (["analysis", "search"].contains "content"
              && ["analysis", "search"].contains "search") "content"
          ++ stepKey (["analysis", "search"].contains "analysis"
              && ["analysis", "search"].contains "search") "analysis") ∧
    ((execute_paid_workflow defaultBehavior initialState "wf-c1w" "widgets"
        ["analysis", "search"] "wallet-w" "user-1").2.1).map
        (fun wf => wf.results.map Prod.fst)
      = Except.ok (stepKey (["analysis", "search"].contains "search") "search"
          ++ stepKey (["analysis", "search"].contains "content"
              && ["analysis", "search"].contains "search") "content"
          ++ stepKey (["analysis", "search"].contains "analysis"
              && ["analysis", "search"].contains "search") "analysis") ∧
    (execute_paid_workflow defaultBehavior initialState "wf-c1w" "widgets"
        ["analysis", "search"] "wallet-w" "user-1").2.2
      = stepEvs (["analysis", "search"].contains "search") "search"
        ++ stepEvs (["analysis", "search"].contains "content"
            && ["analysis", "search"].contains "search") "content"
        ++ stepEvs (["analysis", "search"].contains "analysis"
            && ["analysis", "search"].contains "search") "analysis" :=
  C1_fixed_block_order defaultBehavior initialState "wf-c1w" "widgets"
    ["analysis", "search"] "wallet-w" "user-1" rfl

/-- C3 counterexample: `["analysis"]` completes with total cost `0`, while the
sum of catalog prices over resolving selected ids is `analysis`'s `0.018` —
the claimed equality with that sum fails (analysis is skipped without a
search result). -/
theorem C3_counterexample :
    ((["analysis"].filterMap resolveAgent).map (fun a => a.price_sol)).sum
      = 18/1000 ∧
    ((execute_paid_workflow defaultBehavior initialState "wf-c3" "widgets"
        ["analysis"] "wallet-w" "user-1").2.1).map
      (fun wf => (wf.status, wf.total_cost_sol, wf.payments))
      = Except.ok (WStatus.completed, 0, []) := by
  constructor
  · simp [resolveAgent, analysisAgentInfo, List.filterMap]
  · rfl

/-- C3 (amended): for every run that returns a completed workflow, the total
cost equals the sum of the recorded payment amounts, and that sum equals the
catalog prices of the blocks actually charged: search if selected, content
and analysis each if selected together with search — duplicates and
skipped-but-resolving ids contribute nothing. -/
theorem C3_total_cost_consistency (beh : AgentBehavior) (st : MarketState)
    (wid q : String) (sel : List String) (w u : String)
    (h : ((execute_paid_workflow beh st wid q sel w u).2.1).isOk = true) :
    ((execute_paid_workflow beh st wid q sel w u).2.1).map
        (fun wf => wf.total_cost_sol)
      = ((execute_paid_workflow beh st wid q sel w u).2.1).map
          (fun wf => (wf.payments.map (fun p => p.2.amount_sol)).sum) ∧
    ((execute_paid_workflow beh st wid q sel w u).2.1).map
        (fun wf => wf.total_cost_sol)
      = Except.ok ((if sel.contains "search" then searchAgentInfo.price_sol else 0)
          + (if sel.contains "content" && sel.contains "search"
              then contentAgentInfo.price_sol else 0)
          + (if sel.contains "analysis" && sel.contains "search"
              then analysisAgentInfo.price_sol else 0)) := by
  obtain ⟨b1, b2, b3, wfr, hw, htx, htr, hpk, hpa, hpai, hsum, hid, hsel, hm⟩ :=
    execute_shape beh st wid q sel w u
  cases hr : (execute_paid_workflow beh st wid q sel w u).2.1 with
  | error e =>
    rw [hr] at h
    simp [Except.isOk, Except.toBool] at h
  | ok wf =>
    simp only [hr] at hm
    obtain ⟨hwf, hst, herr, hsucc, husd, hres, hb1, hb2, hb3⟩ := hm
    refine ⟨by simp [Except.map, hwf, hsum], ?_⟩
    rw [← hb1, ← hb2, ← hb3]
    have hts : wfr.total_cost_sol
        = (stepKey b1 (12/1000 : ℚ) ++ stepKey b2 (8/1000 : ℚ)
            ++ stepKey b3 (18/1000 : ℚ)).sum := by
      rw [hsum, hpa]
    simp only [Except.map, hwf, hts]
    cases b1 <;> cases b2 <;> cases b3 <;>
      norm_num [stepKey, searchAgentInfo, contentAgentInfo, analysisAgentInfo]

/-- Witness for the amended C3 with search and content selected. -/
theorem C3_total_cost_consistency_witness :
    ((execute_paid_workflow defaultBehavior initialState "wf-c3w" "widgets"
        ["search", "content"] "wallet-w" "user-1").2.1).map
        (fun wf => wf.total_cost_sol)
      = ((execute_paid_workflow defaultBehavior initialState "wf-c3w" "widgets"
          ["search", "content"] "wallet-w" "user-1").2.1).map
          (fun wf => (wf.payments.map (fun p => p.2.amount_sol)).sum) ∧
    ((execute_paid_workflow defaultBehavior initialState "wf-c3w" "widgets"
        ["search", "content"] "wallet-w" "user-1").2.1).map
        (fun wf => wf.total_cost_sol)
      = Except.ok ((if ["search", "content"].contains "search"
            then searchAgentInfo.price_sol else 0)
          + (if ["search", "content"].contains "content"
              && ["search", "content"].contains "search"
              then contentAgentInfo.price_sol else 0)
          + (if ["search", "content"].contains "analysis"
              && ["search", "content"].contains "search"
              then analysisAgentInfo.price_sol else 0)) :=
  C3_total_cost_consistency defaultBehavior initialState "wf-c3w" "widgets"
    ["search", "content"] "wallet-w" "user-1" rfl

set_option maxHeartbeats 1600000 in
/-- Runs over two selections that agree on membership of the three recognised
tokens coincide in every observable: ledger, trace, outcome and stored record
— up to the verbatim `selected_agents` field copied into the workflow
record, which nothing reads back. -/
theorem execute_membership_congr (beh : AgentBehavior) (st : MarketState)
    (wid q : String) (sel sel2 : List String) (w u : String)
    (h1 : sel.contains "search" = sel2.contains "search")
    (h2 : sel.contains "content" = sel2.contains "content")
    (h3 : sel.contains "analysis" = sel2.contains "analysis") :
    (execute_paid_workflow beh st wid q sel w u).1.transactions
      = (execute_paid_workflow beh st wid q sel2 w u).1.transactions ∧
    (execute_paid_workflow beh st wid q sel w u).2.2
      = (execute_paid_workflow beh st wid q sel2 w u).2.2 ∧
    ((execute_paid_workflow beh st wid q sel w u).2.1).map (fun wf => setSel wf [])
      = ((execute_paid_workflow beh st wid q sel2 w u).2.1).map (fun wf => setSel wf []) ∧
    (get_workflow_result (execute_paid_workflow beh st wid q sel w u).1 wid).map
        (fun wf => setSel wf [])
      = (get_workflow_result (execute_paid_workflow beh st wid q sel2 w u).1 wid).map
          (fun wf => setSel wf []) := by
  cases hs : sel.contains "search" with
  | false =>
    have hs2 : sel2.contains "search" = false := by rw [← h1]; exact hs
    simp only [execute_paid_workflow, searchStep, contentStep, analysisStep,
      process_payment, hs, hs2, Bool.false_eq_true, if_false, List.lookup]
    refine ⟨by trivial, by trivial, ?_, ?_⟩
    · simp [Except.map, setSel]
    · simp [get_workflow_result, dictInsert_lookup, setSel]
  | true =>
    have hs2 : sel2.contains "search" = true := by rw [← h1]; exact hs
    cases hse : beh.searchExec q with
    | error e =>
      simp only [execute_paid_workflow, searchStep, contentStep, analysisStep,
        process_payment, hs, hs2, hse, if_true, List.lookup]
      refine ⟨by trivial, by trivial, ?_, ?_⟩
      · simp [Except.map, setSel]
      · simp [get_workflow_result, dictInsert_lookup, setSel]
    | ok rS =>
      cases hc : sel.contains "content" with
      | true =>
        have hc2 : sel2.contains "content" = true := by rw [← h2]; exact hc
        cases hce : beh.contentExec rS with
        | error e =>
          simp only [execute_paid_workflow, searchStep, contentStep, analysisStep,
            process_payment, hs, hs2, hc, hc2, hse, hce, if_true, List.lookup,
            show ("search" == "search") = true from rfl,
            show ("content" == "search") = false from rfl]
          refine ⟨by trivial, by trivial, ?_, ?_⟩
          · simp [Except.map, setSel]
          · simp [get_workflow_result, dictInsert_lookup, setSel]
        | ok rC =>
          cases ha : sel.contains "analysis" with
          | true =>
            have ha2 : sel2.contains "analysis" = true := by rw [← h3]; exact ha
            cases hae : beh.analysisExec rS rC with
            | error e =>
              simp only [execute_paid_workflow, searchStep, contentStep, analysisStep,
                process_payment, hs, hs2, hc, hc2, ha, ha2, hse, hce, if_true,
                List.lookup,
                show ("search" == "search") = true from rfl,
                show ("content" == "search") = false from rfl,
                show ("content" == "content") = true from rfl,
                Option.getD, hae]
              refine ⟨by trivial, by trivial, ?_, ?_⟩
              · simp [Except.map, setSel]
              · simp [get_workflow_result, dictInsert_lookup, setSel]
            | ok rA =>
              simp only [execute_paid_workflow, searchStep, contentStep, analysisStep,
                process_payment, hs, hs2, hc, hc2, ha, ha2, hse, hce, if_true,
                List.lookup,
                show ("search" == "search") = true from rfl,
                show ("content" == "search") = false from rfl,
                show ("content" == "content") = true from rfl,
                Option.getD, hae]
              refine ⟨by trivial, by trivial, ?_, ?_⟩
              · simp [Except.map, setSel]
              · simp [get_workflow_result, dictInsert_lookup, setSel]
          | false =>
            have ha2 : sel2.contains "analysis" = false := by rw [← h3]; exact ha
            simp only [execute_paid_workflow, searchStep, contentStep, analysisStep,
              process_payment, hs, hs2, hc, hc2, ha, ha2, hse, hce,
              Bool.false_eq_true, if_false, if_true, List.lookup,
              show ("search" == "search") = true from rfl,
              show ("content" == "search") = false from rfl]
            refine ⟨by trivial, by trivial, ?_, ?_⟩
            · simp [Except.map, setSel]
            · simp [get_workflow_result, dictInsert_lookup, setSel]
      | false =>
        have hc2 : sel2.contains "content" = false := by rw [← h2]; exact hc
        cases ha : sel.contains "analysis" with
        | true =>
          have ha2 : sel2.contains "analysis" = true := by rw [← h3]; exact ha
          cases hae : beh.analysisExec rS Payload.emptyDict with
          | error e =>
            simp only [execute_paid_workflow, searchStep, contentStep, analysisStep,
              process_payment, hs, hs2, hc, hc2, ha, ha2, hse, Bool.false_eq_true,
              if_false, if_true, List.lookup,
              show ("search" == "search") = true from rfl,
              show ("content" == "search") = false from rfl,
              Option.getD, hae]
            refine ⟨by trivial, by trivial, ?_, ?_⟩
            · simp [Except.map, setSel]
            · simp [get_workflow_result, dictInsert_lookup, setSel]
          | ok rA =>
            simp only [execute_paid_workflow, searchStep, contentStep, analysisStep,
              process_payment, hs, hs2, hc, hc2, ha, ha2, hse, Bool.false_eq_true,
              if_false, if_true, List.lookup,
              show ("search" == "search") = true from rfl,
              show ("content" == "search") = false from rfl,
              Option.getD, hae]
            refine ⟨by trivial, by trivial, ?_, ?_⟩
            · simp [Except.map, setSel]
            · simp [get_workflow_result, dictInsert_lookup, setSel]
        | false =>
          have ha2 : sel2.contains "analysis" = false := by rw [← h3]; exact ha
          simp only [execute_paid_workflow, searchStep, contentStep, analysisStep,
            process_payment, hs, hs2, hc, hc2, ha, ha2, hse, Bool.false_eq_true,
            if_false, if_true, List.lookup,
            show ("search" == "search") = true from rfl]
          refine ⟨by trivial, by trivial, ?_, ?_⟩
          · simp [Except.map, setSel]
          · simp [get_workflow_result, dictInsert_lookup, setSel]

/-- Filtering a selection by a predicate the element satisfies does not change
membership of that element. -/
theorem contains_filter_of_pred (l : List String) (p : String → Bool) (a : String)
    (ha : p a = true) : (l.filter p).contains a = l.contains a := by
  induction l with
  | nil => rfl
  | cons b t ih =>
    by_cases hb : p b = true
    · simp [List.filter_cons, hb, List.contains_cons, ih, ha]
    · have hab : a ≠ b := fun he => hb (he ▸ ha)
      simp [List.filter_cons, hb, List.contains_cons, ih, ha, hab]

/-- A run whose selection does not contain `"search"` completes immediately:
content and analysis are gated on a search result, so nothing is charged,
invoked or recorded. -/
theorem execute_no_search (beh : AgentBehavior) (st : MarketState)
    (wid q : String) (sel : List String) (w u : String)
    (hs : sel.contains "search" = false) :
    ((execute_paid_workflow beh st wid q sel w u).2.1).map
        (fun wf => (wf.status, wf.payments, wf.results, wf.total_cost_sol))
      = Except.ok (WStatus.completed, [], [], 0) ∧
    (execute_paid_workflow beh st wid q sel w u).1.transactions = st.transactions ∧
    (execute_paid_workflow beh st wid q sel w u).2.2 = [] := by
  simp only [execute_paid_workflow, searchStep, contentStep, analysisStep,
    process_payment, hs, Bool.false_eq_true, if_false, List.lookup]
  exact ⟨by trivial, by trivial, by trivial⟩

/-- C4: a provider id that does not resolve is silently skipped — the run
behaves exactly (ledger, trace, outcome and stored record, up to the copied
`selected_agents` field) as if the selection were filtered down to its
resolving ids, and a selection with no resolving id at all completes with no
payment, no result, zero cost and an unchanged ledger. -/
theorem C4_unknown_ids_skipped (beh : AgentBehavior) (st : MarketState)
    (wid q : String) (sel : List String) (w u : String) :
    ((execute_paid_workflow beh st wid q sel w u).1.transactions
        = (execute_paid_workflow beh st wid q
            (sel.filter fun x => (resolveAgent x).isSome) w u).1.transactions ∧
      (execute_paid_workflow beh st wid q sel w u).2.2
        = (execute_paid_workflow beh st wid q
            (sel.filter fun x => (resolveAgent x).isSome) w u).2.2 ∧
      ((execute_paid_workflow beh st wid q sel w u).2.1).map (fun wf => setSel wf [])
        = ((execute_paid_workflow beh st wid q
            (sel.filter fun x => (resolveAgent x).isSome) w u).2.1).map
          (fun wf => setSel wf []) ∧
      (get_workflow_result (execute_paid_workflow beh st wid q sel w u).1 wid).map
          (fun wf => setSel wf [])
        = (get_workflow_result (execute_paid_workflow beh st wid q
            (sel.filter fun x => (resolveAgent x).isSome) w u).1 wid).map
          (fun wf => setSel wf [])) ∧
    ((∀ x ∈ sel, resolveAgent x = none) →
      ((execute_paid_workflow beh st wid q sel w u).2.1).map
          (fun wf => (wf.status, wf.payments, wf.results, wf.total_cost_sol))
        = Except.ok (WStatus.completed, [], [], 0) ∧
      (execute_paid_workflow beh st wid q sel w u).1.transactions
        = st.transactions) := by
  constructor
  · exact execute_membership_congr beh st wid q sel
      (sel.filter fun x => (resolveAgent x).isSome) w u
      (contains_filter_of_pred sel _ "search" (by simp [resolveAgent])).symm
      (contains_filter_of_pred sel _ "content" (by simp [resolveAgent])).symm
      (contains_filter_of_pred sel _ "analysis" (by simp [resolveAgent])).symm
  · intro hall
    have hs : sel.contains "search" = false := by
      cases hcs : sel.contains "search" with
      | false => rfl
      | true =>
        have hmem : "search" ∈ sel := by simpa using hcs
        have := hall "search" hmem
        simp [resolveAgent] at this
    obtain ⟨h1, h2, -⟩ := execute_no_search beh st wid q sel w u hs
    exact ⟨h1, h2⟩

/-- Witness for C4 at a concrete selection naming only an unknown id. -/
theorem C4_unknown_ids_skipped_witness :
    resolveAgent "mystery-agent" = none ∧
    ((execute_paid_workflow defaultBehavior initialState "wf-c4" "widgets"
        ["mystery-agent"] "wallet-w" "user-1").2.1).map
        (fun wf => (wf.status, wf.payments, wf.results, wf.total_cost_sol))
      = Except.ok (WStatus.completed, [], [], 0) ∧
    (execute_paid_workflow defaultBehavior initialState "wf-c4" "widgets"
        ["mystery-agent"] "wallet-w" "user-1").1.transactions
      = initialState.transactions :=
  ⟨by simp [resolveAgent],
    ((C4_unknown_ids_skipped defaultBehavior initialState "wf-c4" "widgets"
        ["mystery-agent"] "wallet-w" "user-1").2 (by simp [resolveAgent])).1,
    ((C4_unknown_ids_skipped defaultBehavior initialState "wf-c4" "widgets"
        ["mystery-agent"] "wallet-w" "user-1").2 (by simp [resolveAgent])).2⟩

/-- Any workflow present after a direct run was present before or is terminal. -/
theorem paid_store_status (beh : AgentBehavior) (st : MarketState) (wid q : String)
    (sel : List String) (w u : String) (p : String × Workflow)
    (hp : p ∈ (execute_paid_workflow beh st wid q sel w u).1.workflows) :
    p ∈ st.workflows ∨ p.2.status = WStatus.completed ∨ p.2.status = WStatus.failed := by
  obtain ⟨b1, b2, b3, wfr, hw, htx, htr, hpk, hpa, hpai, hsum, hid, hsel, hm⟩ :=
    execute_shape beh st wid q sel w u
  rw [hw] at hp
  rcases mem_dictInsert _ _ _ _ hp with h | h
  · exact Or.inl h
  · cases hr : (execute_paid_workflow beh st wid q sel w u).2.1 with
    | ok wf =>
      simp only [hr] at hm
      exact Or.inr (Or.inl (h ▸ hm.2.1))
    | error e =>
      simp only [hr] at hm
      exact Or.inr (Or.inr (h ▸ hm.1))

/-- Any workflow present after a Coral-integration run was present before or is
terminal (the decoration of the enabled path preserves the terminal status). -/
theorem coral_store_status (env : CoralEnv) (beh : AgentBehavior) (st : MarketState)
    (wid q : String) (sel : List String) (w : String) (p : String × Workflow)
    (hp : p ∈ (execute_coral_workflow env beh st wid q sel w).1.workflows) :
    p ∈ st.workflows ∨ p.2.status = WStatus.completed ∨ p.2.status = WStatus.failed := by
  unfold execute_coral_workflow at hp
  by_cases he : env.coral_enabled = false
  · rw [if_pos he] at hp
    exact paid_store_status beh st wid q sel w "demo_user" p hp
  · rw [if_neg he] at hp
    cases hct : env.create_thread with
    | none =>
      simp only [hct] at hp
      exact paid_store_status beh st wid q sel w "demo_user" p hp
    | some tid =>
      simp only [hct] at hp
      cases hsend : env.send_ok with
      | false =>
        simp only [hsend, Bool.false_eq_true, if_false] at hp
        exact paid_store_status beh st wid q sel w "demo_user" p hp
      | true =>
        simp only [hsend, if_true] at hp
        cases hr : (execute_paid_workflow beh st wid q sel w "demo_user").2.1 with
        | error e =>
          simp only [hr] at hp
          exact paid_store_status beh st wid q sel w "demo_user" p hp
        | ok wf =>
          simp only [hr] at hp
          rcases mem_dictInsert _ _ _ _ hp with h | h
          · exact paid_store_status beh st wid q sel w "demo_user" p h
          · right; left
            obtain ⟨b1, b2, b3, wfr, hw, htx, htr, hpk, hpa, hpai, hsum, hid, hsel, hm⟩ :=
              execute_shape beh st wid q sel w "demo_user"
            simp only [hr] at hm
            have hstat : wf.status = WStatus.completed := by
              rw [hm.1]; exact hm.2.1
            rw [h]
            simpa [addCoralMeta] using hstat

/-- C9: every reachable workflow store holds only terminal records, so
`get_workflow_result` returns absent or a workflow whose status is
`completed` or `failed`, never `processing`. -/
theorem C9_store_only_terminal (st : MarketState) (wid : String) (h : Reachable st) :
    ((get_workflow_result st wid).all fun wf =>
      (wf.status == WStatus.completed) || (wf.status == WStatus.failed)) = true := by
  have inv : ∀ p ∈ st.workflows,
      p.2.status = WStatus.completed ∨ p.2.status = WStatus.failed := by
    induction h with
    | init => intro p hp; simp [initialState] at hp
    | paid beh st1 wid1 q sel w u hst ih =>
      intro p hp
      rcases paid_store_status beh st1 wid1 q sel w u p hp with h | h
      · exact ih p h
      · exact h
    | coral env beh st1 wid1 q sel w hst ih =>
      intro p hp
      rcases coral_store_status env beh st1 wid1 q sel w p hp with h | h
      · exact ih p h
      · exact h
  cases hl : get_workflow_result st wid with
  | none => rfl
  | some wf =>
    have hmem : (wid, wf) ∈ st.workflows := lookup_mem _ _ _ hl
    have h2 : wf.status = WStatus.completed ∨ wf.status = WStatus.failed :=
      inv (wid, wf) hmem
    rcases h2 with h | h <;> simp [Option.all, h]

/-- Witness for C9 on a state reached by one completed and one failed run. -/
theorem C9_store_only_terminal_witness :
    ((get_workflow_result (execute_paid_workflow defaultBehavior initialState "wf-c9"
        "widgets" ["search"] "wallet-w" "user-1").1 "wf-c9").all fun wf =>
      (wf.status == WStatus.completed) || (wf.status == WStatus.failed)) = true :=
  C9_store_only_terminal _ "wf-c9"
    (Reachable.paid defaultBehavior initialState "wf-c9" "widgets" ["search"]
      "wallet-w" "user-1" Reachable.init)
